import Mathlib

/-!
# PlexPulse aggregation engine — a shallow embedding with verified properties

This file embeds the history-aggregation core of the PlexPulse repository
(`src/services/dataProcessing.ts`) into Lean 4 and proves properties of it.

Embedding conventions:

* JavaScript numbers are modelled as `ℚ` (durations) and `Int`/`Nat`
  (counts, rounded hours).  `NaN`/`undefined` numeric fields are modelled
  with `Option ℚ` (`none` = missing or NaN), which is exactly the class of
  values rejected by the source's `typeof x === 'number' && !isNaN(x)`
  test and zeroed by its `x || 0` idiom.
* A JavaScript `Date` is either invalid/absent (`Option.none`) or a valid
  local-time instant.  A valid instant is modelled by `Timestamp`: the
  civil (proleptic Gregorian) day index `dayIdx` (days since 1970-01-01)
  plus the hour of day.  The source only ever observes a date through
  `getFullYear/getMonth/getDate/getDay/getHours`, `toDateString`
  (which renders the calendar day, a bijection between calendar days and
  strings), and midnight round-trips `new Date(d.toDateString()).getTime()`
  (midnight of that calendar day).  Minutes/seconds are never observed, so
  they are omitted.  Daylight-saving shifts are not modelled: a calendar
  day is exactly 86400000 ms (the source's tolerance window exists only to
  absorb DST and is embedded faithfully below).
* JavaScript plain objects used as accumulator maps (`Record<string, T>`)
  are modelled as insertion-ordered association lists; `Object.keys` /
  `Object.values` / `Object.entries` enumerate insertion order for
  non-integer-like string keys, and ascending numeric order for
  integer-like keys.
* `Array.prototype.sort(cmp)` is stable (ES2019); it is modelled by
  `List.insertionSort r` (a stable sort) with `r a b ↔ cmp a b ≤ 0`.
* `Math.round x` rounds half toward +∞: it is `⌊x + 1/2⌋`, `jsRound` below.
-/

/-- JavaScript `Math.round`: round half toward positive infinity. -/
def jsRound (q : ℚ) : Int := ⌊q + 1/2⌋

theorem jsRound_intCast (n : Int) : jsRound (n : ℚ) = n := by
  unfold jsRound
  rw [Int.floor_eq_iff]
  exact ⟨by linarith, by linarith⟩

theorem jsRound_nonneg {q : ℚ} (h : 0 ≤ q) : 0 ≤ jsRound q := by
  unfold jsRound
  positivity

/-- Keep the first occurrence of every element (the order in which a JS
`Set` or object-literal accumulator enumerates its keys). -/
def dedupFirstAux [DecidableEq α] (seen : List α) : List α → List α
  | [] => []
  | a :: l => if a ∈ seen then dedupFirstAux seen l else a :: dedupFirstAux (a :: seen) l

def dedupFirst [DecidableEq α] (l : List α) : List α := dedupFirstAux [] l

theorem mem_dedupFirstAux [DecidableEq α] (x : α) :
    ∀ (l seen : List α), x ∈ dedupFirstAux seen l ↔ x ∈ l ∧ x ∉ seen := by
  intro l
  induction l with
  | nil => intro seen; simp [dedupFirstAux]
  | cons a l ih =>
    intro seen
    by_cases ha : a ∈ seen
    · simp only [dedupFirstAux, if_pos ha, ih, List.mem_cons]
      constructor
      · rintro ⟨h1, h2⟩; exact ⟨Or.inr h1, h2⟩
      · rintro ⟨rfl | h1, h2⟩
        · exact absurd ha h2
        · exact ⟨h1, h2⟩
    · simp only [dedupFirstAux, if_neg ha, List.mem_cons, ih]
      constructor
      · rintro (rfl | ⟨h1, h2⟩)
        · exact ⟨Or.inl rfl, ha⟩
        · exact ⟨Or.inr h1, fun hx => h2 (Or.inr hx)⟩
      · rintro ⟨rfl | h1, h2⟩
        · exact Or.inl rfl
        · by_cases hxa : x = a
          · exact Or.inl hxa
          · exact Or.inr ⟨h1, fun hx => hx.elim hxa h2⟩

theorem mem_dedupFirst [DecidableEq α] (x : α) (l : List α) :
    x ∈ dedupFirst l ↔ x ∈ l := by
  unfold dedupFirst
  rw [mem_dedupFirstAux]
  simp

theorem nodup_dedupFirstAux [DecidableEq α] :
    ∀ (l seen : List α), (dedupFirstAux seen l).Nodup := by
  intro l
  induction l with
  | nil => intro seen; simp [dedupFirstAux]
  | cons a l ih =>
    intro seen
    by_cases ha : a ∈ seen
    · simpa [dedupFirstAux, if_pos ha] using ih seen
    · simp only [dedupFirstAux, if_neg ha, List.nodup_cons]
      refine ⟨fun hx => ?_, ih (a :: seen)⟩
      exact ((mem_dedupFirstAux a l (a :: seen)).mp hx).2 (List.mem_cons_self a seen)

theorem nodup_dedupFirst [DecidableEq α] (l : List α) : (dedupFirst l).Nodup :=
  nodup_dedupFirstAux l []

/-- If every element of `l` maps into the duplicate-free key list `ks`,
then the per-key occurrence counts sum to the length of `l`. -/
theorem sum_countP_eq_length [DecidableEq β] (l : List α) (f : α → β) :
    ∀ ks : List β, ks.Nodup → (∀ x ∈ l, f x ∈ ks) →
      (ks.map (fun k => l.countP (fun x => decide (f x = k)))).sum = l.length := by
  induction l with
  | nil => intro ks _ _; simp
  | cons a l ih =>
    intro ks hnd hcov
    have hmem : f a ∈ ks := hcov a (List.mem_cons_self a l)
    have hcov' : ∀ x ∈ l, f x ∈ ks := fun x hx => hcov x (List.mem_cons_of_mem _ hx)
    have hsingle : ∀ ks' : List β, ks'.Nodup → f a ∈ ks' →
        (ks'.map (fun k => if f a = k then 1 else 0)).sum = 1 := by
      intro ks'
      induction ks' with
      | nil => intro _ h; simp at h
      | cons b ks' ih2 =>
        intro hnd' hmem'
        rcases List.mem_cons.mp hmem' with heq | hmem'
        · have hzero : (ks'.map (fun k => if f a = k then 1 else 0)).sum = 0 := by
            apply List.sum_eq_zero
            intro x hx
            rcases List.mem_map.mp hx with ⟨k, hk, rfl⟩
            have hk' : f a ≠ k := by
              intro he
              exact (List.nodup_cons.mp hnd').1 (by rw [← heq, he]; exact hk)
            simp [hk']
          rw [List.map_cons, List.sum_cons, if_pos heq, hzero]
        · have hne : f a ≠ b := fun he =>
            (List.nodup_cons.mp hnd').1 (he ▸ hmem')
          simp [hne, ih2 (List.nodup_cons.mp hnd').2 hmem']
    have step : ∀ k, (a :: l).countP (fun x => decide (f x = k)) =
        l.countP (fun x => decide (f x = k)) + (if f a = k then 1 else 0) := by
      intro k
      rw [List.countP_cons]
      by_cases h : f a = k <;> simp [h]
    calc (ks.map (fun k => (a :: l).countP (fun x => decide (f x = k)))).sum
        = (ks.map (fun k => l.countP (fun x => decide (f x = k)) +
            (if f a = k then 1 else 0))).sum := by
          congr 1; exact List.map_congr_left (fun k _ => step k)
      _ = (ks.map (fun k => l.countP (fun x => decide (f x = k)))).sum +
            (ks.map (fun k => if f a = k then 1 else 0)).sum := by
          rw [← List.sum_map_add]
      _ = l.length + 1 := by rw [ih ks hnd hcov', hsingle ks hnd hmem]
      _ = (a :: l).length := by simp

/-! ## Calendar model

`civilFromDays` converts a day index (days since 1970-01-01) to a proleptic
Gregorian `(year, month 1-12, day 1-31)` triple — the standard
"days to civil" algorithm, which is what a JS `Date`'s local getters
compute (with a fixed UTC-like zone, cf. the header comment). -/

def civilFromDays (z0 : Int) : Int × Nat × Nat :=
  let z := z0 + 719468
  -- era = floor(z / 146097); the source algorithm writes this with
  -- truncating division as (z >= 0 ? z : z - 146096) / 146097.
  let era : Int := z.fdiv 146097
  let doe : Nat := (z - era * 146097).toNat          -- [0, 146096]
  let yoe : Nat := (doe - doe / 1460 + doe / 36524 - doe / 146096) / 365
  let y : Int := (yoe : Int) + era * 400
  let doy : Nat := doe - (365 * yoe + yoe / 4 - yoe / 100)   -- [0, 365]
  let mp : Nat := (5 * doy + 2) / 153
  let d : Nat := doy - (153 * mp + 2) / 5 + 1               -- [1, 31]
  let m : Nat := if mp < 10 then mp + 3 else mp - 9          -- [1, 12]
  (if m ≤ 2 then y + 1 else y, m, d)

/-- Whether `y` is a Gregorian leap year (the rule realised by JS `Date`). -/
def isLeapYear (y : Int) : Bool := (y % 4 == 0 && y % 100 != 0) || y % 400 == 0

/-- Number of days in the (0-based) month `m` of year `y`.  This embeds the
source idiom `new Date(year, monthIndex + 1, 0).getDate()`: day 0 of the
next month is the last day of month `monthIndex`, whose day-of-month number
is the month's day count. -/
def daysInMonth (y : Int) (m : Nat) : Nat :=
  if m = 1 then (if isLeapYear y then 29 else 28)
  else if m = 3 ∨ m = 5 ∨ m = 8 ∨ m = 10 then 30
  else 31

/-- One day in milliseconds (`24 * 60 * 60 * 1000` in the source). -/
def oneDayMs : Int := 86400000

/-- A valid JS `Date` as observed by the aggregation code: the civil day
index and the hour of day.  (Minutes and seconds are never observed by the
source; see the header comment.) -/
structure Timestamp where
  dayIdx : Int
  hour : Nat
deriving DecidableEq, Repr

/-- JS `getFullYear()` (local time). -/
def yearOf (t : Timestamp) : Int := (civilFromDays t.dayIdx).1

/-- JS `getMonth()` (local time, 0-based). -/
def monthOf (t : Timestamp) : Nat := (civilFromDays t.dayIdx).2.1 - 1

/-- JS `getDate()` (local time, day of month 1-31). -/
def dateOf (t : Timestamp) : Nat := (civilFromDays t.dayIdx).2.2

/-- JS `getDay()` (day of week, 0 = Sunday): 1970-01-01 was a Thursday. -/
def dowOf (t : Timestamp) : Nat := ((t.dayIdx + 4).emod 7).toNat

/-- JS `getHours()`: always in `[0, 24)`. -/
def hourOf (t : Timestamp) : Nat := t.hour % 24

theorem dowOf_lt (t : Timestamp) : dowOf t < 7 := by
  unfold dowOf
  have h1 : 0 ≤ (t.dayIdx + 4).emod 7 := Int.emod_nonneg _ (by decide)
  have h2 : (t.dayIdx + 4).emod 7 < 7 := Int.emod_lt_of_pos _ (by decide)
  omega

theorem hourOf_lt (t : Timestamp) : hourOf t < 24 := Nat.mod_lt _ (by decide)

/-- JS `toLocaleString('default', { month: 'long' })` for the (0-based)
month of a valid date, in the default (English) locale. -/
def monthNameOf (m : Nat) : String :=
  (["January", "February", "March", "April", "May", "June", "July",
    "August", "September", "October", "November", "December"].get? m).getD
    "Invalid Date"

/-! ## Data model (`src/types.ts`) -/

inductive MediaType where
  | movie | episode | track | unknown
deriving DecidableEq, Repr

/-- The `name` rendered into the media-kind distribution for each kind. -/
def kindName : MediaType → String
  | .movie => "movie"
  | .episode => "episode"
  | .track => "track"
  | .unknown => "unknown"

/-- `PlayHistoryItem` from `src/types.ts`.  `date` is `none` when the
event's `Date` is absent or invalid (`isNaN(date.getTime())`);
`durationMinutes` is `none` when absent or `NaN`; `type` is `none` when the
field is falsy (the source defaults it with `item.type || 'unknown'`). -/
structure PlayHistoryItem where
  title : String
  parentTitle : Option String
  grandparentTitle : Option String
  date : Option Timestamp
  durationMinutes : Option ℚ
  type : Option MediaType
  user : Option String
deriving DecidableEq, Repr

/-- `TopItem` from `src/types.ts`. -/
structure TopItem where
  name : String
  count : Nat
  totalDurationMinutes : ℚ
  lastWatched : Option Timestamp
deriving DecidableEq, Repr

/-- `HeatmapPoint` from `src/types.ts` (`day` is day-of-week 0-6 in the
weekly heatmap and day-of-month 1-31 in the monthly heatmap). -/
structure HeatmapPoint where
  day : Nat
  hour : Nat
  value : Nat
deriving DecidableEq, Repr

/-- `MonthlyReport` from `src/types.ts`.  The source's `monthKey` is the
string `` `${year}-${pad2(month+1)}` ``; since the year is rendered with a
fixed width inside one report and the month is zero-padded to two digits,
that string is an order-preserving bijective rendering of the pair
`(year, month)`, which is how the key is modelled here. -/
structure MonthlyReport where
  monthKey : Int × Nat
  monthName : String
  year : Int
  totalHours : Int
  topItem : String
  topItemType : String
  playCount : Nat
  bingeScore : ℚ
deriving DecidableEq, Repr

/-- `YearlyReport` from `src/types.ts`.  `dailyActivity` is keyed in the
source by the string `` `${y}-${mm}-${dd}` `` rendering of the calendar
day, a bijective rendering of the civil day index used here. -/
structure YearlyReport where
  year : Int
  totalHours : Int
  totalPlays : Nat
  activeDays : Nat
  longestStreak : Nat
  busiestMonth : String
  monthlyBreakdown : List MonthlyReport
  heatmapData : List HeatmapPoint
  dailyActivity : List (Int × Nat)
deriving DecidableEq, Repr

/-- The defaulted media kind: `item.type || 'unknown'`. -/
def jsType (i : PlayHistoryItem) : MediaType := i.type.getD .unknown

/-- The defaulted duration: the source's
`typeof d === 'number' && !isNaN(d) ? d : 0` (and the equivalent `d || 0`
used in the report code; both send missing/NaN to 0 and keep every other
number, `0 || 0 = 0` included). -/
def jsDur (i : PlayHistoryItem) : ℚ := i.durationMinutes.getD 0

/-- JS string truthiness filter: `none` and `""` are falsy. -/
def truthyStr : Option String → Option String
  | some s => if s = "" then none else some s
  | none => none

/-- JS `>` on two dates (`valueOf` comparison; any invalid side gives
`NaN > _ = false`).  Milliseconds of a modelled instant. -/
def msOf (t : Timestamp) : Int := t.dayIdx * oneDayMs + (hourOf t) * 3600000

def dateGt : Option Timestamp → Option Timestamp → Bool
  | some a, some b => msOf a > msOf b
  | _, _ => false

/-! ## Global summary (`processHistoryData`, source lines 5-89) -/

/-- `AnalyticsSummary` from `src/types.ts`.  `playsByMonth` keys are the
`` `${y}-${mm}` `` strings, modelled as `(year, month)` pairs (see
`MonthlyReport.monthKey`); `totalDurationHours` is an integer after the
final `Math.round`. -/
structure AnalyticsSummary where
  totalPlays : Nat
  totalDurationHours : Int
  topMovies : List TopItem
  topShows : List TopItem
  playsByHour : List (Nat × Nat)
  playsByDayOfWeek : List (String × Nat)
  playsByMonth : List ((Int × Nat) × Nat)
  mediaTypeDistribution : List (String × Nat)
deriving DecidableEq, Repr

/-- The mutable accumulators of the `data.forEach` pass in
`processHistoryData`: the summary totals, the two top-item objects, and
the hour/day/month/type counters. -/
structure SummaryState where
  totalPlays : Nat
  durationRaw : ℚ
  movieStats : List (String × TopItem)
  showStats : List (String × TopItem)
  hourCounts : Nat → Nat
  dayCounts : Nat → Nat
  monthCounts : List ((Int × Nat) × Nat)
  typeCounts : MediaType → Nat

def initSummaryState : SummaryState :=
  ⟨0, 0, [], [], fun _ => 0, fun _ => 0, [], fun _ => 0⟩

/-- `if (!m[k]) m[k] = init; mutate(m[k])` on an insertion-ordered JS
object: a fresh key is appended, an existing key is updated in place. -/
def recUpdate (k : String) (init : TopItem) (f : TopItem → TopItem) :
    List (String × TopItem) → List (String × TopItem)
  | [] => [(k, f init)]
  | (k', v) :: rest =>
    if k' = k then (k', f v) :: rest else (k', v) :: recUpdate k init f rest

/-- `m[k] = (m[k] || 0) + 1` on an insertion-ordered JS object. -/
def bumpCount (k : Int × Nat) : List ((Int × Nat) × Nat) → List ((Int × Nat) × Nat)
  | [] => [(k, 1)]
  | (k', v) :: rest =>
    if k' = k then (k', v + 1) :: rest else (k', v) :: bumpCount k rest

/-- The per-event mutations of a top-item entry (source lines 40-44 and
50-54): bump the count, add the duration, and update `lastWatched` when
`item.date > lastWatched` (false whenever either side is invalid). -/
def statUpdate (d : ℚ) (date : Option Timestamp) (ti : TopItem) : TopItem :=
  let ti := { ti with count := ti.count + 1,
                      totalDurationMinutes := ti.totalDurationMinutes + d }
  if dateGt date ti.lastWatched then { ti with lastWatched := date } else ti

/-- `item.grandparentTitle || item.parentTitle || item.title || "Unknown Show"`. -/
def showNameOf (i : PlayHistoryItem) : String :=
  (((truthyStr i.grandparentTitle).or (truthyStr i.parentTitle)).or
    (truthyStr (some i.title))).getD "Unknown Show"

/-- One iteration of the `data.forEach` loop of `processHistoryData`
(source lines 24-67), written as one record: each accumulator is updated
exactly as the corresponding mutation does.  The `if/else if` of lines
36-55 touches `movieStats` in its first branch and `showStats` in its
second, so it appears once per affected field; the `if (item.date && ...)`
guard of lines 57-66 wraps the three time-bucket counters.
(`if (summary.playsByHour[hour])` always succeeds since getHours() < 24.) -/
def summaryStep (st : SummaryState) (item : PlayHistoryItem) : SummaryState :=
  let duration := jsDur item
  let t := jsType item
  { totalPlays := st.totalPlays + 1
    durationRaw := st.durationRaw + duration / 60
    movieStats :=
      if t = .movie ∧ item.title ≠ "" then
        recUpdate item.title ⟨item.title, 0, 0, item.date⟩
          (statUpdate duration item.date) st.movieStats
      else st.movieStats
    showStats :=
      if t = .movie ∧ item.title ≠ "" then st.showStats
      else if t = .episode then
        recUpdate (showNameOf item) ⟨showNameOf item, 0, 0, item.date⟩
          (statUpdate duration item.date) st.showStats
      else st.showStats
    hourCounts := match item.date with
      | some ts => fun h => if h = hourOf ts then st.hourCounts h + 1 else st.hourCounts h
      | none => st.hourCounts
    dayCounts := match item.date with
      | some ts => fun d => if d = dowOf ts then st.dayCounts d + 1 else st.dayCounts d
      | none => st.dayCounts
    monthCounts := match item.date with
      | some ts => bumpCount (yearOf ts, monthOf ts) st.monthCounts
      | none => st.monthCounts
    typeCounts := fun k => if k = t then st.typeCounts k + 1 else st.typeCounts k }

def dayNames : List String := ["Sun", "Mon", "Tue", "Wed", "Thu", "Fri", "Sat"]

/-- The post-loop construction of the summary (source lines 69-88). -/
def finalizeSummary (st : SummaryState) : AnalyticsSummary :=
  { totalPlays := st.totalPlays
    -- `Math.round(summary.totalDurationHours || 0)`: the accumulator is a
    -- real rational here, so `|| 0` only maps 0 to itself.
    totalDurationHours := jsRound st.durationRaw
    topMovies := ((st.movieStats.map Prod.snd).insertionSort
        (fun a b => b.count ≤ a.count)).take 50
    topShows := ((st.showStats.map Prod.snd).insertionSort
        (fun a b => b.count ≤ a.count)).take 50
    playsByHour := (List.range 24).map (fun h => (h, st.hourCounts h))
    playsByDayOfWeek := (List.range 7).map (fun d => (dayNames.getD d "", st.dayCounts d))
    -- `.sort((a, b) => a.month.localeCompare(b.month))`: on the zero-padded
    -- `${y}-${mm}` keys this is the lexicographic order on (year, month).
    playsByMonth := st.monthCounts.insertionSort
        (fun a b => a.1.1 < b.1.1 ∨ (a.1.1 = b.1.1 ∧ a.1.2 ≤ b.1.2))
    mediaTypeDistribution :=
      ([MediaType.movie, .episode, .track, .unknown].map
        (fun k => (kindName k, st.typeCounts k))).filter (fun p => 0 < p.2) }

/-- `processHistoryData` (the spec's `computeSummary`). -/
def processHistoryData (data : List PlayHistoryItem) : AnalyticsSummary :=
  finalizeSummary (data.foldl summaryStep initSummaryState)

/-! ## Yearly reports (`processReports`, source lines 91-219) -/

/-- The year-partition guard (source lines 94-98): events whose date is
absent or invalid are skipped; valid events keep their timestamp. -/
def validPairs (data : List PlayHistoryItem) : List (PlayHistoryItem × Timestamp) :=
  data.filterMap (fun i => i.date.map (fun ts => (i, ts)))

/-- `const name = i.type === 'episode' ? (i.grandparentTitle || i.title) : i.title`
(source line 149). -/
def monthEntryName (i : PlayHistoryItem) : String :=
  if i.type = some .episode then (truthyStr i.grandparentTitle).getD i.title
  else i.title

/-- One month's report (source lines 142-173); `mo` is the 0-based month of
the `` `${year}-${pad2(mo+1)}` `` record key, `items` the year's events. -/
def mkMonthlyReport (year : Int) (items : List (PlayHistoryItem × Timestamp))
    (mo : Nat) : MonthlyReport :=
  let mItems := items.filter (fun p => decide (monthOf p.2 = mo))
  let totalMinutes : ℚ := (mItems.map (fun p => jsDur p.1)).sum
  -- `isNaN(totalHours) ? 0 : totalHours`: NaN cannot arise over ℚ.
  let totalHours : Int := jsRound (totalMinutes / 60)
  let names := (mItems.map (fun p => monthEntryName p.1)).filter (fun s => !(s = ""))
  let nameKeys := dedupFirst names
  let sortedEntries := (nameKeys.map (fun n => (n, names.count n))).insertionSort
      (fun a b => b.2 ≤ a.2)
  let topEntry : String × Nat := sortedEntries.headD ("None", 0)
  let activeDaysCount := (dedupFirst (mItems.map (fun p => p.2.dayIdx))).length
  let episodes := mItems.countP (fun p => decide (p.1.type = some .episode))
  let bingeScore : ℚ := if 0 < activeDaysCount then (episodes : ℚ) / activeDaysCount else 0
  { monthKey := (year, mo)
    monthName := match mItems.head? with
      | some p => monthNameOf (monthOf p.2)
      | none => "Invalid Date"
    year := year
    totalHours := totalHours
    topItem := topEntry.1
    topItemType := "mixed"
    playCount := mItems.length
    bingeScore := min 10 ((jsRound (bingeScore * 10) : ℚ) / 10) }

/-- The body of the `uniqueDays.forEach` streak loop (source lines
185-199), carrying the state `(prevTime, maxStreak, currentStreak)` over
the remaining midnight times. -/
def streakGo : Int → Nat → Nat → List Int → Nat
  | _, maxS, _, [] => maxS
  | prevTime, maxS, curS, time :: rest =>
    let cur' :=
      if time - prevTime ≤ oneDayMs + 10000000 then
        let diffDays := jsRound ((time - prevTime : ℚ) / (oneDayMs : ℚ))
        if diffDays = 1 then curS + 1 else if 1 < diffDays then 1 else curS
      else 1
    streakGo time (max maxS cur') cur' rest

/-- The whole streak loop: index 0 sets `currentStreak = 1` and updates
`maxStreak` (initially 0) before the rest of the walk. -/
def maxStreakOf : List Int → Nat
  | [] => 0
  | t :: rest => streakGo t (max 0 1) 1 rest

/-- One year's report (the body of the `Object.keys(years).forEach`,
source lines 103-216). -/
def mkYearlyReport (year : Int) (items : List (PlayHistoryItem × Timestamp)) :
    YearlyReport :=
  -- Weekly heatmap (lines 111-130): the `${getDay()}-${getHours()}` keyed
  -- counter read back over the dense 7×24 loop.
  let heatmapData : List HeatmapPoint := (List.range 7).flatMap (fun d =>
    (List.range 24).map (fun h =>
      { day := d, hour := h,
        value := items.countP (fun p => decide (dowOf p.2 = d ∧ hourOf p.2 = h)) }))
  -- Daily activity (lines 117-118, 132): a counter keyed by the rendered
  -- calendar day, entries in first-occurrence order.
  let dayKeys := dedupFirst (items.map (fun p => p.2.dayIdx))
  let dailyActivity := dayKeys.map (fun k =>
    (k, items.countP (fun p => decide (p.2.dayIdx = k))))
  -- Monthly partition (lines 135-140): buckets keyed `${year}-${pad2(m+1)}`
  -- in first-occurrence order, then (line 173) sorted by key ascending.
  let monthKeys := dedupFirst (items.map (fun p => monthOf p.2))
  let monthly0 := (monthKeys.map (mkMonthlyReport year items)).insertionSort
      (fun a b => a.monthKey.1 < b.monthKey.1 ∨
        (a.monthKey.1 = b.monthKey.1 ∧ a.monthKey.2 ≤ b.monthKey.2))
  -- Line 201 `monthlyBreakdown.sort((a,b) => b.totalHours - a.totalHours)[0]`
  -- re-sorts the SAME array in place, so the list stored in the report is
  -- the hours-descending one.
  let monthlyBreakdown := monthly0.insertionSort (fun a b => b.totalHours ≤ a.totalHours)
  let busiest := monthlyBreakdown.head?
  -- Streaks (lines 176-199): distinct calendar days (`toDateString`, in
  -- first-occurrence order), taken back to their midnight epoch times and
  -- sorted ascending numerically.
  let uniqueDays := ((dedupFirst (items.map (fun p => p.2.dayIdx))).map
      (fun d => d * oneDayMs)).insertionSort (fun a b => a ≤ b)
  let maxStreak := maxStreakOf uniqueDays
  let totalYearMinutes : ℚ := (items.map (fun p => jsDur p.1)).sum
  { year := year
    -- `isNaN(finalYearHours) ? 0 : finalYearHours`: NaN cannot arise over ℚ.
    totalHours := jsRound (totalYearMinutes / 60)
    totalPlays := items.length
    activeDays := uniqueDays.length
    longestStreak := maxStreak
    busiestMonth := match busiest with | some b => b.monthName | none => "N/A"
    monthlyBreakdown := monthlyBreakdown
    heatmapData := heatmapData
    dailyActivity := dailyActivity }

/-- `processReports` (the spec's `computeYearlyReports`). -/
def processReports (data : List PlayHistoryItem) : List YearlyReport :=
  let pairs := validPairs data
  -- `Object.keys(years)`: integer-like keys enumerate in ascending numeric
  -- order, and `parseInt` round-trips them.  (The final sort below orders
  -- the reports by year in any case.)
  let yearKeys := (dedupFirst (pairs.map (fun p => yearOf p.2))).insertionSort
      (fun a b => a ≤ b)
  let reports := yearKeys.map (fun y =>
    mkYearlyReport y (pairs.filter (fun p => decide (yearOf p.2 = y))))
  reports.insertionSort (fun a b => b.year ≤ a.year)

/-! ## Single-month heatmap (`generateMonthlyHeatmap`, source lines 221-250) -/

/-- `generateMonthlyHeatmap` (the spec's `generateMonthHeatmap`).  The
source filter `d.date && d.date.getFullYear() === year && d.date.getMonth()
=== monthIndex` drops absent dates directly and invalid ones through their
NaN fields. -/
def generateMonthlyHeatmap (data : List PlayHistoryItem) (year : Int)
    (monthIndex : Nat) : List HeatmapPoint :=
  let items := (validPairs data).filter (fun p =>
    decide (yearOf p.2 = year ∧ monthOf p.2 = monthIndex))
  let daysCount := daysInMonth year monthIndex
  (List.range' 1 daysCount).flatMap (fun d =>
    (List.range 24).map (fun h =>
      { day := d, hour := h,
        value := items.countP (fun p => decide (dateOf p.2 = d ∧ hourOf p.2 = h)) }))

/-! ## Lemmas about the summary fold -/

theorem summaryStep_totalPlays (st : SummaryState) (i : PlayHistoryItem) :
    (summaryStep st i).totalPlays = st.totalPlays + 1 := rfl

theorem summaryStep_durationRaw (st : SummaryState) (i : PlayHistoryItem) :
    (summaryStep st i).durationRaw = st.durationRaw + jsDur i / 60 := rfl

theorem summaryStep_typeCounts (st : SummaryState) (i : PlayHistoryItem) :
    (summaryStep st i).typeCounts =
      fun k => if k = jsType i then st.typeCounts k + 1 else st.typeCounts k := rfl

theorem summaryStep_movieStats (st : SummaryState) (i : PlayHistoryItem) :
    (summaryStep st i).movieStats =
      if jsType i = .movie ∧ i.title ≠ "" then
        recUpdate i.title ⟨i.title, 0, 0, i.date⟩ (statUpdate (jsDur i) i.date) st.movieStats
      else st.movieStats := rfl

theorem summaryStep_showStats (st : SummaryState) (i : PlayHistoryItem) :
    (summaryStep st i).showStats =
      if jsType i = .movie ∧ i.title ≠ "" then st.showStats
      else if jsType i = .episode then
        recUpdate (showNameOf i) ⟨showNameOf i, 0, 0, i.date⟩
          (statUpdate (jsDur i) i.date) st.showStats
      else st.showStats := rfl

theorem summaryStep_time_none (st : SummaryState) (i : PlayHistoryItem)
    (h : i.date = none) :
    (summaryStep st i).hourCounts = st.hourCounts ∧
    (summaryStep st i).dayCounts = st.dayCounts ∧
    (summaryStep st i).monthCounts = st.monthCounts := by
  refine ⟨?_, ?_, ?_⟩ <;> (show (match i.date with | some _ => _ | none => _) = _) <;>
    rw [h]

theorem foldl_totalPlays (data : List PlayHistoryItem) :
    ∀ st, (data.foldl summaryStep st).totalPlays = st.totalPlays + data.length := by
  induction data with
  | nil => intro st; simp
  | cons a l ih =>
    intro st
    rw [List.foldl_cons, ih, summaryStep_totalPlays, List.length_cons]
    omega

theorem foldl_durationRaw (data : List PlayHistoryItem) :
    ∀ st, (data.foldl summaryStep st).durationRaw =
      st.durationRaw + (data.map (fun i => jsDur i / 60)).sum := by
  induction data with
  | nil => intro st; simp
  | cons a l ih =>
    intro st
    rw [List.foldl_cons, ih, summaryStep_durationRaw, List.map_cons, List.sum_cons]
    ring

theorem sum_map_div_const (l : List α) (f : α → ℚ) (c : ℚ) :
    (l.map (fun x => f x / c)).sum = (l.map f).sum / c := by
  induction l with
  | nil => simp
  | cons a l ih => simp [ih, add_div]

/-- **C2.** For every input event list, the summary returned by
`processHistoryData` (the spec's `computeSummary`) has `totalPlays` equal
to the length of the input list, regardless of the validity of any
event's timestamp, duration, or title. -/
theorem C2_totalPlays_eq_length (data : List PlayHistoryItem) :
    (processHistoryData data).totalPlays = data.length := by
  show (finalizeSummary (data.foldl summaryStep initSummaryState)).totalPlays = data.length
  rw [show (finalizeSummary (data.foldl summaryStep initSummaryState)).totalPlays
      = (data.foldl summaryStep initSummaryState).totalPlays from rfl]
  rw [foldl_totalPlays]
  simp [initSummaryState]

/-- **C3.** For every input event list whose (present, numeric) durations
are non-negative — the spec's data-model invariant on `durationMinutes` —
`totalDurationHours` is non-negative and equals
`round(sum(max(duration, 0)) / 60)`, with missing/NaN durations
contributing 0 and rounding applied once at the end. -/
theorem C3_totalDurationHours_spec (data : List PlayHistoryItem)
    (h : ∀ i ∈ data, 0 ≤ jsDur i) :
    0 ≤ (processHistoryData data).totalDurationHours ∧
    (processHistoryData data).totalDurationHours =
      jsRound ((data.map (fun i => max (jsDur i) 0)).sum / 60) := by
  have hmax : data.map (fun i => max (jsDur i) 0) = data.map jsDur :=
    List.map_congr_left (fun i hi => max_eq_left (h i hi))
  have hval : (processHistoryData data).totalDurationHours =
      jsRound ((data.map jsDur).sum / 60) := by
    show jsRound (data.foldl summaryStep initSummaryState).durationRaw = _
    rw [foldl_durationRaw, sum_map_div_const]
    show jsRound (0 + (data.map jsDur).sum / 60) = _
    rw [zero_add]
  have hnn : 0 ≤ (data.map jsDur).sum / 60 := by
    apply div_nonneg _ (by norm_num)
    apply List.sum_nonneg
    intro x hx
    rcases List.mem_map.mp hx with ⟨i, hi, rfl⟩
    exact h i hi
  refine ⟨?_, by rw [hval, hmax]⟩
  rw [hval]
  exact jsRound_nonneg hnn

/-- **C5.** An event with a missing or invalid timestamp is counted in
`totalPlays` and in the duration total, but appears in none of the
hourly / day-of-week / monthly distributions, and `processReports`
(the spec's `computeYearlyReports`) excludes it from every year's report
entirely. -/
theorem C5_invalid_timestamp_isolation (data : List PlayHistoryItem)
    (e : PlayHistoryItem) (he : e.date = none) :
    (processHistoryData (data ++ [e])).totalPlays =
      (processHistoryData data).totalPlays + 1 ∧
    (processHistoryData (data ++ [e])).totalDurationHours =
      jsRound ((data.map (fun i => jsDur i / 60)).sum + jsDur e / 60) ∧
    (processHistoryData (data ++ [e])).playsByHour =
      (processHistoryData data).playsByHour ∧
    (processHistoryData (data ++ [e])).playsByDayOfWeek =
      (processHistoryData data).playsByDayOfWeek ∧
    (processHistoryData (data ++ [e])).playsByMonth =
      (processHistoryData data).playsByMonth ∧
    processReports (data ++ [e]) = processReports data := by
  have hfold : (data ++ [e]).foldl summaryStep initSummaryState =
      summaryStep (data.foldl summaryStep initSummaryState) e := by
    rw [List.foldl_append]; rfl
  obtain ⟨h1, h2, h3⟩ :=
    summaryStep_time_none (data.foldl summaryStep initSummaryState) e he
  have hH : ((data ++ [e]).foldl summaryStep initSummaryState).hourCounts =
      (data.foldl summaryStep initSummaryState).hourCounts := by rw [hfold]; exact h1
  have hD : ((data ++ [e]).foldl summaryStep initSummaryState).dayCounts =
      (data.foldl summaryStep initSummaryState).dayCounts := by rw [hfold]; exact h2
  have hM : ((data ++ [e]).foldl summaryStep initSummaryState).monthCounts =
      (data.foldl summaryStep initSummaryState).monthCounts := by rw [hfold]; exact h3
  refine ⟨?_, ?_, ?_, ?_, ?_, ?_⟩
  · simp only [processHistoryData, finalizeSummary, hfold, summaryStep_totalPlays]
  · simp only [processHistoryData, finalizeSummary, hfold, summaryStep_durationRaw,
      foldl_durationRaw]
    rw [show initSummaryState.durationRaw = 0 from rfl, zero_add]
  · simp only [processHistoryData, finalizeSummary, hH]
  · simp only [processHistoryData, finalizeSummary, hD]
  · simp only [processHistoryData, finalizeSummary, hM]
  · have hvp : validPairs (data ++ [e]) = validPairs data := by
      simp [validPairs, he]
    unfold processReports
    rw [hvp]

/-! ## Lemmas about the top lists -/

/-- `type === 'movie' && item.title` — the guard of the movie top-list
branch (source line 36). -/
def movieContribB (i : PlayHistoryItem) : Bool :=
  decide (jsType i = .movie ∧ i.title ≠ "")

/-- `type === 'episode'` — the guard of the show top-list branch
(source line 45). -/
def showContribB (i : PlayHistoryItem) : Bool := decide (jsType i = .episode)

/-- The movie-stats accumulation restricted to its own branch. -/
def movieFold (data : List PlayHistoryItem) (m : List (String × TopItem)) :
    List (String × TopItem) :=
  data.foldl (fun acc i =>
    recUpdate i.title ⟨i.title, 0, 0, i.date⟩ (statUpdate (jsDur i) i.date) acc) m

/-- The show-stats accumulation restricted to its own branch. -/
def showFold (data : List PlayHistoryItem) (m : List (String × TopItem)) :
    List (String × TopItem) :=
  data.foldl (fun acc i =>
    recUpdate (showNameOf i) ⟨showNameOf i, 0, 0, i.date⟩
      (statUpdate (jsDur i) i.date) acc) m

theorem foldl_movieStats (data : List PlayHistoryItem) :
    ∀ st, (data.foldl summaryStep st).movieStats =
      movieFold (data.filter movieContribB) st.movieStats := by
  induction data with
  | nil => intro st; rfl
  | cons a l ih =>
    intro st
    rw [List.foldl_cons, ih, List.filter_cons]
    by_cases h : jsType a = .movie ∧ a.title ≠ ""
    · have hb : movieContribB a = true := by simp [movieContribB, h]
      rw [hb, if_pos rfl, summaryStep_movieStats, if_pos h]
      rfl
    · have hb : movieContribB a = false := by simp [movieContribB, h]
      rw [hb, summaryStep_movieStats, if_neg h]
      simp

theorem foldl_showStats (data : List PlayHistoryItem) :
    ∀ st, (data.foldl summaryStep st).showStats =
      showFold (data.filter showContribB) st.showStats := by
  induction data with
  | nil => intro st; rfl
  | cons a l ih =>
    intro st
    rw [List.foldl_cons, ih, List.filter_cons]
    by_cases h2 : jsType a = .episode
    · have h1 : ¬(jsType a = .movie ∧ a.title ≠ "") := by
        rintro ⟨c1, _⟩
        rw [h2] at c1
        cases c1
      have hb : showContribB a = true := by simp [showContribB, h2]
      rw [hb, if_pos rfl, summaryStep_showStats, if_neg h1, if_pos h2]
      rfl
    · have hb : showContribB a = false := by simp [showContribB, h2]
      rw [hb, summaryStep_showStats]
      by_cases h1 : jsType a = .movie ∧ a.title ≠ ""
      · rw [if_pos h1]; simp
      · rw [if_neg h1, if_neg h2]; simp

/-- Look a media kind's count up in the rendered distribution (0 when the
kind was filtered out as empty). -/
def distLookup (s : AnalyticsSummary) (n : String) : Nat :=
  ((s.mediaTypeDistribution.find? (fun p => decide (p.1 = n))).map Prod.snd).getD 0

theorem distLookup_finalize (st : SummaryState) (k : MediaType) :
    distLookup (finalizeSummary st) (kindName k) = st.typeCounts k := by
  cases k <;>
    simp only [distLookup, finalizeSummary, kindName, List.map_cons, List.map_nil,
      List.filter_cons, List.filter_nil] <;>
    split_ifs <;>
    simp_all [List.find?]

/-- **C9.** Only movie-kind events with a non-empty title contribute to
`topMovies`, and only episode-kind events contribute to `topShows`: the
top lists are unchanged by removing all other events, and appending a
track/unknown event (or a movie event with an empty title) is counted in
`totalPlays`, in the duration total and in its media-kind distribution
entry, but leaves both top lists unchanged. -/
theorem C9_toplist_contributors (data : List PlayHistoryItem) (e : PlayHistoryItem)
    (he : jsType e = .track ∨ jsType e = .unknown ∨
      (jsType e = .movie ∧ e.title = "")) :
    (processHistoryData data).topMovies =
      (processHistoryData (data.filter movieContribB)).topMovies ∧
    (processHistoryData data).topShows =
      (processHistoryData (data.filter showContribB)).topShows ∧
    (processHistoryData (data ++ [e])).topMovies =
      (processHistoryData data).topMovies ∧
    (processHistoryData (data ++ [e])).topShows =
      (processHistoryData data).topShows ∧
    (processHistoryData (data ++ [e])).totalPlays =
      (processHistoryData data).totalPlays + 1 ∧
    (processHistoryData (data ++ [e])).totalDurationHours =
      jsRound ((data.map (fun i => jsDur i / 60)).sum + jsDur e / 60) ∧
    distLookup (processHistoryData (data ++ [e])) (kindName (jsType e)) =
      distLookup (processHistoryData data) (kindName (jsType e)) + 1 := by
  have hm : ¬(jsType e = .movie ∧ e.title ≠ "") := by
    rcases he with h | h | ⟨h, h'⟩
    · rintro ⟨c1, _⟩; rw [h] at c1; cases c1
    · rintro ⟨c1, _⟩; rw [h] at c1; cases c1
    · rintro ⟨_, c2⟩; exact c2 h'
  have hs : ¬(jsType e = .episode) := by
    rcases he with h | h | ⟨h, _⟩ <;> (intro c; rw [h] at c; cases c)
  have hfold : (data ++ [e]).foldl summaryStep initSummaryState =
      summaryStep (data.foldl summaryStep initSummaryState) e := by
    rw [List.foldl_append]; rfl
  have hmovie : ((data ++ [e]).foldl summaryStep initSummaryState).movieStats =
      (data.foldl summaryStep initSummaryState).movieStats := by
    rw [hfold, summaryStep_movieStats, if_neg hm]
  have hshow : ((data ++ [e]).foldl summaryStep initSummaryState).showStats =
      (data.foldl summaryStep initSummaryState).showStats := by
    rw [hfold, summaryStep_showStats, if_neg hm, if_neg hs]
  have hidemM : (data.filter movieContribB).filter movieContribB =
      data.filter movieContribB := by
    rw [List.filter_filter]
    exact List.filter_congr (fun x _ => Bool.and_self _)
  have hidemS : (data.filter showContribB).filter showContribB =
      data.filter showContribB := by
    rw [List.filter_filter]
    exact List.filter_congr (fun x _ => Bool.and_self _)
  have hMinv : (data.foldl summaryStep initSummaryState).movieStats =
      ((data.filter movieContribB).foldl summaryStep initSummaryState).movieStats := by
    rw [foldl_movieStats, foldl_movieStats, hidemM]
  have hSinv : (data.foldl summaryStep initSummaryState).showStats =
      ((data.filter showContribB).foldl summaryStep initSummaryState).showStats := by
    rw [foldl_showStats, foldl_showStats, hidemS]
  refine ⟨?_, ?_, ?_, ?_, ?_, ?_, ?_⟩
  · simp only [processHistoryData, finalizeSummary, hMinv]
  · simp only [processHistoryData, finalizeSummary, hSinv]
  · simp only [processHistoryData, finalizeSummary, hmovie]
  · simp only [processHistoryData, finalizeSummary, hshow]
  · simp only [processHistoryData, finalizeSummary, hfold, summaryStep_totalPlays]
  · simp only [processHistoryData, finalizeSummary, hfold, summaryStep_durationRaw,
      foldl_durationRaw]
    rw [show initSummaryState.durationRaw = 0 from rfl, zero_add]
  · show distLookup (finalizeSummary _) _ = distLookup (finalizeSummary _) _ + 1
    rw [distLookup_finalize, distLookup_finalize, hfold, summaryStep_typeCounts]
    simp

/-! ## Lemmas about the yearly reports -/

/-- The events the year-`y` report is computed from: valid-timestamp
events whose calendar year is `y`. -/
def yearItems (data : List PlayHistoryItem) (y : Int) :
    List (PlayHistoryItem × Timestamp) :=
  (validPairs data).filter (fun p => decide (yearOf p.2 = y))

theorem mem_processReports {data : List PlayHistoryItem} {r : YearlyReport} :
    r ∈ processReports data ↔
      ∃ y ∈ dedupFirst ((validPairs data).map (fun p => yearOf p.2)),
        r = mkYearlyReport y (yearItems data y) := by
  simp only [processReports]
  constructor
  · intro h
    rw [(List.perm_insertionSort _ _).mem_iff] at h
    rcases List.mem_map.mp h with ⟨y, hy, hEq⟩
    rw [(List.perm_insertionSort _ _).mem_iff] at hy
    exact ⟨y, hy, by rw [← hEq]; rfl⟩
  · rintro ⟨y, hy, rfl⟩
    rw [(List.perm_insertionSort _ _).mem_iff]
    exact List.mem_map.mpr ⟨y, (List.perm_insertionSort _ _).mem_iff.mpr hy, rfl⟩

theorem mkYearlyReport_year (y : Int) (items : List (PlayHistoryItem × Timestamp)) :
    (mkYearlyReport y items).year = y := rfl

theorem mkYearlyReport_totalPlays (y : Int) (items : List (PlayHistoryItem × Timestamp)) :
    (mkYearlyReport y items).totalPlays = items.length := rfl

theorem mkYearlyReport_heatmapData (y : Int) (items : List (PlayHistoryItem × Timestamp)) :
    (mkYearlyReport y items).heatmapData = (List.range 7).flatMap (fun d =>
      (List.range 24).map (fun h =>
        { day := d, hour := h,
          value := items.countP
            (fun p => decide (dowOf p.2 = d ∧ hourOf p.2 = h)) })) := rfl

theorem mkYearlyReport_dailyActivity (y : Int) (items : List (PlayHistoryItem × Timestamp)) :
    (mkYearlyReport y items).dailyActivity =
      (dedupFirst (items.map (fun p => p.2.dayIdx))).map (fun k =>
        (k, items.countP (fun p => decide (p.2.dayIdx = k)))) := rfl

theorem mkYearlyReport_activeDays (y : Int) (items : List (PlayHistoryItem × Timestamp)) :
    (mkYearlyReport y items).activeDays =
      (((dedupFirst (items.map (fun p => p.2.dayIdx))).map
        (fun d => d * oneDayMs)).insertionSort (fun a b => a ≤ b)).length := rfl

theorem mkYearlyReport_longestStreak (y : Int) (items : List (PlayHistoryItem × Timestamp)) :
    (mkYearlyReport y items).longestStreak =
      maxStreakOf (((dedupFirst (items.map (fun p => p.2.dayIdx))).map
        (fun d => d * oneDayMs)).insertionSort (fun a b => a ≤ b)) := rfl

theorem mkYearlyReport_monthlyBreakdown (y : Int) (items : List (PlayHistoryItem × Timestamp)) :
    (mkYearlyReport y items).monthlyBreakdown =
      (((dedupFirst (items.map (fun p => monthOf p.2))).map
          (mkMonthlyReport y items)).insertionSort
        (fun a b => a.monthKey.1 < b.monthKey.1 ∨
          (a.monthKey.1 = b.monthKey.1 ∧ a.monthKey.2 ≤ b.monthKey.2))).insertionSort
        (fun a b => b.totalHours ≤ a.totalHours) := rfl

theorem mkMonthlyReport_playCount (y : Int) (items : List (PlayHistoryItem × Timestamp))
    (mo : Nat) : (mkMonthlyReport y items mo).playCount =
      (items.filter (fun p => decide (monthOf p.2 = mo))).length := rfl

/-- On a duplicate-free list, an element occurs exactly once. -/
theorem countP_eq_one_of_nodup_mem [DecidableEq α] {l : List α} {a : α}
    (hnd : l.Nodup) (ha : a ∈ l) :
    l.countP (fun x => decide (x = a)) = 1 := by
  induction l with
  | nil => simp at ha
  | cons b l ih =>
    rw [List.countP_cons]
    rcases List.mem_cons.mp ha with rfl | ha'
    · have hz : l.countP (fun x => decide (x = a)) = 0 := by
        rw [List.countP_eq_zero]
        intro x hx
        simp only [decide_eq_true_eq]
        intro hxa
        exact (List.nodup_cons.mp hnd).1 (hxa ▸ hx)
      simp [hz]
    · have hba : b ≠ a := fun he => (List.nodup_cons.mp hnd).1 (he ▸ ha')
      rw [ih (List.nodup_cons.mp hnd).2 ha']
      simp [hba]

/-- The dense (day-of-week, hour) grid the weekly heatmap enumerates. -/
def gridPairs : List (Nat × Nat) :=
  (List.range 7).flatMap (fun d => (List.range 24).map (fun h => (d, h)))

set_option maxRecDepth 4000 in
theorem gridPairs_nodup : gridPairs.Nodup := by decide

theorem mem_gridPairs {d h : Nat} : (d, h) ∈ gridPairs ↔ d < 7 ∧ h < 24 := by
  simp only [gridPairs, List.mem_flatMap, List.mem_map, List.mem_range, Prod.mk.injEq]
  constructor
  · rintro ⟨a, ha, b, hb, rfl, rfl⟩
    exact ⟨ha, hb⟩
  · rintro ⟨hd, hh⟩
    exact ⟨d, hd, h, hh, rfl, rfl⟩

theorem heatmap_pairs (y : Int) (items : List (PlayHistoryItem × Timestamp)) :
    (mkYearlyReport y items).heatmapData.map (fun p => (p.day, p.hour)) = gridPairs := by
  rw [mkYearlyReport_heatmapData]
  rw [List.map_flatMap]
  rfl

/-- **C7.** Every yearly report's weekly heatmap has exactly 168 points;
each (day-of-week < 7, hour < 24) pair occurs exactly once; and each
point's value is the count of that year's events in that bucket. -/
theorem C7_weekly_heatmap (data : List PlayHistoryItem) (r : YearlyReport)
    (hr : r ∈ processReports data) :
    r.heatmapData.length = 168 ∧
    (∀ d h : Nat, d < 7 → h < 24 →
      r.heatmapData.countP (fun p => decide (p.day = d ∧ p.hour = h)) = 1) ∧
    (∀ p ∈ r.heatmapData, p.value =
      (yearItems data r.year).countP
        (fun q => decide (dowOf q.2 = p.day ∧ hourOf q.2 = p.hour))) := by
  rcases mem_processReports.mp hr with ⟨y, hy, rfl⟩
  refine ⟨?_, ?_, ?_⟩
  · rfl
  · intro d h hd hh
    have h1 : (mkYearlyReport y (yearItems data y)).heatmapData.countP
        (fun p => decide (p.day = d ∧ p.hour = h)) =
        (mkYearlyReport y (yearItems data y)).heatmapData.countP
        ((fun x => decide (x = (d, h))) ∘ (fun p => (p.day, p.hour))) := by
      apply List.countP_congr
      intro p _
      simp [Prod.ext_iff]
    rw [h1, ← List.countP_map, heatmap_pairs]
    exact countP_eq_one_of_nodup_mem gridPairs_nodup (mem_gridPairs.mpr ⟨hd, hh⟩)
  · intro p hp
    rw [mkYearlyReport_heatmapData] at hp
    rcases List.mem_flatMap.mp hp with ⟨d, hd, hp2⟩
    rcases List.mem_map.mp hp2 with ⟨h, hh, rfl⟩
    rw [mkYearlyReport_year]

/-- **C10.** Every yearly report is internally consistent: `totalPlays`
equals the sum of the 168 heatmap values, the sum of the daily-activity
counts, and the sum of the monthly `playCount`s; and `activeDays` is the
number of daily-activity entries. -/
theorem C10_report_consistency (data : List PlayHistoryItem) (r : YearlyReport)
    (hr : r ∈ processReports data) :
    r.totalPlays = (r.heatmapData.map (fun p => p.value)).sum ∧
    r.totalPlays = (r.dailyActivity.map (fun e => e.2)).sum ∧
    r.totalPlays = (r.monthlyBreakdown.map (fun m => m.playCount)).sum ∧
    r.activeDays = r.dailyActivity.length := by
  rcases mem_processReports.mp hr with ⟨y, hy, rfl⟩
  refine ⟨?_, ?_, ?_, ?_⟩
  · have hfe : (fun (k : Nat × Nat) => (yearItems data y).countP
        (fun q => decide ((dowOf q.2, hourOf q.2) = k))) =
        (fun (k : Nat × Nat) => (yearItems data y).countP
        (fun q => decide (dowOf q.2 = k.1 ∧ hourOf q.2 = k.2))) := by
      funext k
      apply List.countP_congr
      intro q _
      simp [Prod.ext_iff]
    have hlist : (mkYearlyReport y (yearItems data y)).heatmapData.map (fun p => p.value) =
        gridPairs.map (fun k => (yearItems data y).countP
          (fun q => decide (dowOf q.2 = k.1 ∧ hourOf q.2 = k.2))) := by
      rw [mkYearlyReport_heatmapData]
      simp only [gridPairs, List.map_flatMap, List.map_map]
      rfl
    rw [mkYearlyReport_totalPlays, hlist, ← hfe]
    exact (sum_countP_eq_length (yearItems data y) (fun q => (dowOf q.2, hourOf q.2))
      gridPairs gridPairs_nodup
      (fun x _ => mem_gridPairs.mpr ⟨dowOf_lt _, hourOf_lt _⟩)).symm
  · rw [mkYearlyReport_totalPlays, mkYearlyReport_dailyActivity, List.map_map]
    exact (sum_countP_eq_length (yearItems data y) (fun q => q.2.dayIdx) _
      (nodup_dedupFirst _)
      (fun x hx => (mem_dedupFirst _ _).mpr (List.mem_map.mpr ⟨x, hx, rfl⟩))).symm
  · have hperm : ((mkYearlyReport y (yearItems data y)).monthlyBreakdown.map
        (fun m => m.playCount)).Perm
        (((dedupFirst ((yearItems data y).map (fun p => monthOf p.2))).map
          (mkMonthlyReport y (yearItems data y))).map (fun m => m.playCount)) := by
      rw [mkYearlyReport_monthlyBreakdown]
      exact List.Perm.map _
        ((List.perm_insertionSort _ _).trans (List.perm_insertionSort _ _))
    rw [mkYearlyReport_totalPlays, hperm.sum_eq, List.map_map]
    have hpc : ((fun m => m.playCount) ∘ mkMonthlyReport y (yearItems data y)) =
        (fun mo => (yearItems data y).countP (fun p => decide (monthOf p.2 = mo))) := by
      funext mo
      show (mkMonthlyReport y (yearItems data y) mo).playCount = _
      rw [mkMonthlyReport_playCount, List.countP_eq_length_filter]
    rw [hpc]
    exact (sum_countP_eq_length (yearItems data y) (fun p => monthOf p.2) _
      (nodup_dedupFirst _)
      (fun x hx => (mem_dedupFirst _ _).mpr (List.mem_map.mpr ⟨x, hx, rfl⟩))).symm
  · rw [mkYearlyReport_activeDays, mkYearlyReport_dailyActivity,
      (List.perm_insertionSort _ _).length_eq, List.length_map, List.length_map]

/-- The valid events of one `(year, 0-based month)` calendar month. -/
def monthItems (data : List PlayHistoryItem) (k : Int × Nat) :
    List (PlayHistoryItem × Timestamp) :=
  (validPairs data).filter (fun p => decide (yearOf p.2 = k.1 ∧ monthOf p.2 = k.2))

theorem mkMonthlyReport_monthKey (y : Int) (items : List (PlayHistoryItem × Timestamp))
    (mo : Nat) : (mkMonthlyReport y items mo).monthKey = (y, mo) := rfl

theorem jsRound_zero : jsRound 0 = 0 := by
  have h := jsRound_intCast 0
  simpa using h

/-- Extract the month bucket a monthly report in a yearly report came
from. -/
theorem mem_monthlyBreakdown {data : List PlayHistoryItem} {y : Int}
    {m : MonthlyReport}
    (hm : m ∈ (mkYearlyReport y (yearItems data y)).monthlyBreakdown) :
    ∃ mo ∈ dedupFirst ((yearItems data y).map (fun p => monthOf p.2)),
      m = mkMonthlyReport y (yearItems data y) mo := by
  rw [mkYearlyReport_monthlyBreakdown] at hm
  rw [(List.perm_insertionSort _ _).mem_iff, (List.perm_insertionSort _ _).mem_iff] at hm
  rcases List.mem_map.mp hm with ⟨mo, hmo, hEq⟩
  exact ⟨mo, hmo, hEq.symm⟩

/-- The month bucket of the loop equals the month's events selected from
the whole input. -/
theorem month_bucket_eq (data : List PlayHistoryItem) (y : Int) (mo : Nat) :
    (yearItems data y).filter (fun p => decide (monthOf p.2 = mo)) =
      monthItems data (y, mo) := by
  unfold yearItems monthItems
  rw [List.filter_filter]
  apply List.filter_congr
  intro x _
  simp only [decide_eq_true_eq, Bool.decide_and]
  rw [Bool.and_comm]

/-- **C6.** Every monthly report's binge score is the month's episode
count divided by its distinct active-day count (0 when there are no
active days), rounded to one decimal and capped at 10; consequently it
always lies in [0, 10]. -/
theorem C6_binge_score (data : List PlayHistoryItem) (r : YearlyReport)
    (m : MonthlyReport) (hr : r ∈ processReports data)
    (hm : m ∈ r.monthlyBreakdown) :
    m.bingeScore =
      (if (dedupFirst ((monthItems data m.monthKey).map (fun p => p.2.dayIdx))).length = 0
       then 0
       else min 10 ((jsRound
          (((monthItems data m.monthKey).countP
              (fun p => decide (p.1.type = some .episode)) : ℚ) /
            ((dedupFirst ((monthItems data m.monthKey).map
              (fun p => p.2.dayIdx))).length) * 10) : ℚ) / 10)) ∧
    0 ≤ m.bingeScore ∧ m.bingeScore ≤ 10 := by
  rcases mem_processReports.mp hr with ⟨y, hy, rfl⟩
  rcases mem_monthlyBreakdown hm with ⟨mo, hmo, rfl⟩
  have hkey : (mkMonthlyReport y (yearItems data y) mo).monthKey = (y, mo) := rfl
  rw [hkey, ← month_bucket_eq]
  set b := (yearItems data y).filter (fun p => decide (monthOf p.2 = mo)) with hb
  set days := (dedupFirst (b.map (fun p => p.2.dayIdx))).length with hdaysdef
  set eps := b.countP (fun p => decide (p.1.type = some MediaType.episode)) with hepsdef
  have hbs : (mkMonthlyReport y (yearItems data y) mo).bingeScore =
      min 10 ((jsRound ((if 0 < days then (eps : ℚ) / days else 0) * 10) : ℚ) / 10) := rfl
  have hq0 : (0 : ℚ) ≤ (if 0 < days then (eps : ℚ) / days else 0) := by
    split
    · positivity
    · exact le_refl 0
  have hnn : 0 ≤ min (10 : ℚ) ((jsRound ((if 0 < days then (eps : ℚ) / days else 0) * 10) : ℚ) / 10) := by
    apply le_min (by norm_num)
    apply div_nonneg _ (by norm_num)
    exact_mod_cast jsRound_nonneg (by positivity)
  refine ⟨?_, ?_, ?_⟩
  · rw [hbs]
    by_cases hdays : days = 0
    · rw [if_pos hdays, hdays]
      simp [jsRound_zero]
    · rw [if_neg hdays, if_pos (Nat.pos_of_ne_zero hdays)]
  · rw [hbs]; exact hnn
  · rw [hbs]; exact min_le_left _ _

/-! ## The streak computation -/

/-- Modelled from the claim: walk the sorted distinct active days; a
streak continues exactly when the next day is the previous day plus one
calendar day, any other gap resets it to 1; report the maximum seen. -/
def runWalk : Int → Nat → Nat → List Int → Nat
  | _, maxS, _, [] => maxS
  | prev, maxS, cur, d :: rest =>
    let nxt := if d = prev + 1 then cur + 1 else 1
    runWalk d (max maxS nxt) nxt rest

/-- Modelled from the claim, entry point: the first active day starts a
streak of length 1 (and an empty day set has streak 0). -/
def longestDayRun : List Int → Nat
  | [] => 0
  | d :: rest => runWalk d 1 1 rest

theorem streakGo_eq_runWalk :
    ∀ (rest : List Int) (prev : Int) (maxS curS : Nat),
      List.Chain' (· < ·) (prev :: rest) →
      streakGo (prev * oneDayMs) maxS curS (rest.map (· * oneDayMs)) =
        runWalk prev maxS curS rest := by
  intro rest
  induction rest with
  | nil => intro prev maxS curS _; rfl
  | cons d rest ih =>
    intro prev maxS curS hch
    have hlt : prev < d := (List.chain'_cons.mp hch).1
    have hch' : List.Chain' (· < ·) (d :: rest) := (List.chain'_cons.mp hch).2
    rw [List.map_cons]
    simp only [streakGo, runWalk]
    by_cases h1 : d = prev + 1
    · subst h1
      have e1 : (prev + 1) * oneDayMs - prev * oneDayMs = oneDayMs := by ring
      have e2 : (((prev + 1) * oneDayMs : Int) : ℚ) - ((prev * oneDayMs : Int) : ℚ) =
          ((oneDayMs : Int) : ℚ) := by push_cast; ring
      rw [e1, e2, div_self (by norm_num [oneDayMs]),
        if_pos (le_add_of_nonneg_right (by norm_num)),
        show jsRound 1 = 1 from by simpa using jsRound_intCast 1,
        if_pos rfl, if_pos rfl]
      exact ih (prev + 1) _ _ hch'
    · have e1 : d * oneDayMs - prev * oneDayMs = (d - prev) * oneDayMs := by ring
      have e3 : ¬(d * oneDayMs - prev * oneDayMs ≤ oneDayMs + 10000000) := by
        rw [e1]
        have hmul : 2 * oneDayMs ≤ (d - prev) * oneDayMs :=
          mul_le_mul_of_nonneg_right (by omega) (by norm_num [oneDayMs])
        simp only [oneDayMs] at hmul ⊢
        omega
      rw [if_neg e3, if_neg h1]
      exact ih d _ _ hch'

theorem orderedInsert_map_mulPos (c : Int) (hc : 0 < c) (a : Int) :
    ∀ l : List Int,
      List.orderedInsert (fun x y => x ≤ y) (a * c) (l.map (· * c)) =
        (List.orderedInsert (fun x y => x ≤ y) a l).map (· * c) := by
  intro l
  induction l with
  | nil => rfl
  | cons b l ih =>
    rw [List.map_cons]
    by_cases h : a ≤ b
    · rw [List.orderedInsert, List.orderedInsert,
        if_pos ((mul_le_mul_right hc).mpr h), if_pos h]
      rfl
    · rw [List.orderedInsert, List.orderedInsert,
        if_neg (fun hc2 => h ((mul_le_mul_right hc).mp hc2)), if_neg h,
        List.map_cons, ih]

theorem insertionSort_map_mulPos (c : Int) (hc : 0 < c) (l : List Int) :
    (l.map (· * c)).insertionSort (fun a b => a ≤ b) =
      (l.insertionSort (fun a b => a ≤ b)).map (· * c) := by
  induction l with
  | nil => rfl
  | cons a l ih =>
    rw [List.map_cons, List.insertionSort, List.insertionSort, ih,
      orderedInsert_map_mulPos c hc]

theorem chain'_lt_insertionSort (l : List Int) (h : l.Nodup) :
    List.Chain' (· < ·) (l.insertionSort (fun a b => a ≤ b)) := by
  have hs : List.Sorted (fun a b : Int => a ≤ b) (l.insertionSort (fun a b => a ≤ b)) :=
    List.sorted_insertionSort _ l
  have hnd : (l.insertionSort (fun a b => a ≤ b)).Nodup :=
    (List.perm_insertionSort _ l).nodup_iff.mpr h
  rw [List.chain'_iff_pairwise]
  exact (hs.and hnd).imp (fun hab => lt_of_le_of_ne hab.1 hab.2)

theorem maxStreakOf_eq_longestDayRun (l : List Int)
    (hch : List.Chain' (· < ·) l) :
    maxStreakOf (l.map (· * oneDayMs)) = longestDayRun l := by
  cases l with
  | nil => rfl
  | cons t rest =>
    rw [List.map_cons]
    show streakGo (t * oneDayMs) (max 0 1) 1 (rest.map (· * oneDayMs)) = runWalk t 1 1 rest
    rw [show max 0 1 = 1 from rfl]
    exact streakGo_eq_runWalk rest t 1 1 hch

/-- **C4.** Every year report's `longestStreak` — computed by the source
over midnight epoch milliseconds with a DST tolerance window — equals the
length of the longest run of consecutive calendar days among that year's
distinct active days, where a streak continues exactly when consecutive
distinct active days differ by one calendar day and any other gap resets
it to 1. -/
theorem C4_longest_streak (data : List PlayHistoryItem) (r : YearlyReport)
    (hr : r ∈ processReports data) :
    r.longestStreak = longestDayRun
      ((dedupFirst ((yearItems data r.year).map (fun p => p.2.dayIdx))).insertionSort
        (fun a b => a ≤ b)) := by
  rcases mem_processReports.mp hr with ⟨y, hy, rfl⟩
  rw [mkYearlyReport_year, mkYearlyReport_longestStreak]
  rw [insertionSort_map_mulPos oneDayMs (by norm_num [oneDayMs])]
  exact maxStreakOf_eq_longestDayRun _
    (chain'_lt_insertionSort _ (nodup_dedupFirst _))

/-! ## The single-month heatmap -/

theorem generateMonthlyHeatmap_eq (data : List PlayHistoryItem) (year : Int)
    (monthIndex : Nat) :
    generateMonthlyHeatmap data year monthIndex =
      (List.range' 1 (daysInMonth year monthIndex)).flatMap (fun d =>
        (List.range 24).map (fun h =>
          { day := d, hour := h,
            value := ((validPairs data).filter (fun p =>
                decide (yearOf p.2 = year ∧ monthOf p.2 = monthIndex))).countP
              (fun p => decide (dateOf p.2 = d ∧ hourOf p.2 = h)) })) := rfl

theorem daysInMonth_bounds (y : Int) (m : Nat) :
    28 ≤ daysInMonth y m ∧ daysInMonth y m ≤ 31 := by
  unfold daysInMonth
  split_ifs <;> omega

/-- Whether an event has a valid timestamp falling in the given year,
0-based month, day of month and hour. -/
def eventInBucket (year : Int) (mo d h : Nat) (i : PlayHistoryItem) : Bool :=
  match i.date with
  | some ts => decide (yearOf ts = year ∧ monthOf ts = mo ∧
      dateOf ts = d ∧ hourOf ts = h)
  | none => false

theorem countP_validPairs (data : List PlayHistoryItem)
    (p : PlayHistoryItem × Timestamp → Bool) :
    (validPairs data).countP p =
      data.countP (fun i => match i.date with
        | some ts => p (i, ts)
        | none => false) := by
  induction data with
  | nil => rfl
  | cons a l ih =>
    show (List.filterMap _ (a :: l)).countP p = _
    rw [List.filterMap_cons, List.countP_cons]
    cases a.date with
    | none =>
      show (validPairs l).countP p = _
      rw [ih]
      simp
    | some ts =>
      show ((a, ts) :: validPairs l).countP p = _
      rw [List.countP_cons, ih]

/-- **C8.** For any event list, year, and 0-based month index, the
monthly heatmap enumerates exactly the (day-of-month, hour) pairs with
days running over the days that exist in that month (28-31 of them) and
hours 0-23, in day-then-hour order, each point carrying the count of
events whose timestamp falls in that year, month, day, and hour. -/
theorem C8_monthly_heatmap (data : List PlayHistoryItem) (year : Int)
    (monthIndex : Nat) (_hmi : monthIndex < 12) :
    28 ≤ daysInMonth year monthIndex ∧ daysInMonth year monthIndex ≤ 31 ∧
    (generateMonthlyHeatmap data year monthIndex).map (fun p => (p.day, p.hour)) =
      (List.range' 1 (daysInMonth year monthIndex)).flatMap
        (fun d => (List.range 24).map (fun h => (d, h))) ∧
    (∀ p ∈ generateMonthlyHeatmap data year monthIndex,
      p.value = data.countP (eventInBucket year monthIndex p.day p.hour)) := by
  refine ⟨(daysInMonth_bounds year monthIndex).1,
    (daysInMonth_bounds year monthIndex).2, ?_, ?_⟩
  · rw [generateMonthlyHeatmap_eq, List.map_flatMap]
    have hinner : (fun (d : Nat) =>
        ((List.range 24).map (fun h =>
          ({ day := d, hour := h,
             value := ((validPairs data).filter (fun p =>
                 decide (yearOf p.2 = year ∧ monthOf p.2 = monthIndex))).countP
               (fun p => decide (dateOf p.2 = d ∧ hourOf p.2 = h)) } :
               HeatmapPoint))).map (fun p => (p.day, p.hour))) =
        (fun d => (List.range 24).map (fun h => (d, h))) := by
      funext d
      rw [List.map_map]
      rfl
    exact congrArg _ hinner
  · intro p hp
    rw [generateMonthlyHeatmap_eq] at hp
    rcases List.mem_flatMap.mp hp with ⟨d, hd, hp2⟩
    rcases List.mem_map.mp hp2 with ⟨h, hh, rfl⟩
    show ((validPairs data).filter _).countP _ = _
    rw [List.countP_filter, countP_validPairs]
    apply List.countP_congr
    intro i _
    cases hi : i.date with
    | none => simp [eventInBucket, hi]
    | some ts =>
      simp only [eventInBucket, hi, Bool.and_eq_true, decide_eq_true_eq]
      constructor
      · rintro ⟨⟨hdate, hhour⟩, hyear, hmon⟩
        exact ⟨hyear, hmon, hdate, hhour⟩
      · rintro ⟨hyear, hmon, hdate, hhour⟩
        exact ⟨⟨hdate, hhour⟩, hyear, hmon⟩

/-! ## The monthly-breakdown ordering bug (C1) -/

/-- A concrete input exercising the busiest-month computation: one
January 2023 movie (60 min, day index 19362 = 2023-01-05) and one
February 2023 movie (600 min, day index 19393 = 2023-02-05). -/
def sortBugData : List PlayHistoryItem :=
  [{ title := "A", parentTitle := none, grandparentTitle := none,
     date := some ⟨19362, 10⟩, durationMinutes := some 60,
     type := some .movie, user := none },
   { title := "B", parentTitle := none, grandparentTitle := none,
     date := some ⟨19393, 11⟩, durationMinutes := some 600,
     type := some .movie, user := none }]

set_option maxRecDepth 100000 in
unseal Rat.add Rat.mul Rat.inv Rat.sub in
/-- **C1 (code evaluation at the failing input).** On `sortBugData` the
single 2023 report's `monthlyBreakdown` lists February (month key
(2023, 1)) before January (month key (2023, 0)): the emitted list is NOT
sorted ascending by month key.  The sort by key at source line 173 is
destroyed at line 201, where
`monthlyBreakdown.sort((a, b) => b.totalHours - a.totalHours)[0]`
re-sorts the same array in place by total hours descending before the
report object captures it. -/
theorem C1_monthlyBreakdown_unsorted_on_failing_input :
    (processReports sortBugData).map
        (fun r => r.monthlyBreakdown.map (fun m => m.monthKey)) =
      [[(2023, 1), (2023, 0)]] := by decide

/-! ## Concrete instantiations -/

def dummyReport : YearlyReport := ⟨0, 0, 0, 0, 0, "", [], [], []⟩

def dummyMonth : MonthlyReport := ⟨(0, 0), "", 0, 0, "", "", 0, 0⟩

/-- An episode of "ShowX" watched at 20:00 of civil day `d`. -/
def epItem (d : Int) : PlayHistoryItem :=
  { title := "Ep", parentTitle := some "Season 1",
    grandparentTitle := some "ShowX", date := some ⟨d, 20⟩,
    durationMinutes := some 30, type := some .episode, user := none }

/-- Three episodes on consecutive days 2023-01-05, -06, -07. -/
def w4data : List PlayHistoryItem := [epItem 19362, epItem 19363, epItem 19364]

def w4report : YearlyReport := (processReports w4data).headD dummyReport

/-- A 90-minute movie and an episode with a missing duration, on valid
dates in January 2023. -/
def w3data : List PlayHistoryItem :=
  [{ title := "M", parentTitle := none, grandparentTitle := none,
     date := some ⟨19362, 10⟩, durationMinutes := some 90,
     type := some .movie, user := none },
   { title := "Ep", parentTitle := none, grandparentTitle := some "S",
     date := some ⟨19363, 11⟩, durationMinutes := none,
     type := some .episode, user := none }]

/-- A track event whose timestamp is missing/invalid. -/
def w5e : PlayHistoryItem :=
  { title := "X", parentTitle := none, grandparentTitle := none,
    date := none, durationMinutes := some 120, type := some .track,
    user := none }

/-- Five episodes over two active days of one month: binge score 2.5. -/
def w6data : List PlayHistoryItem :=
  [epItem 19362, epItem 19362, epItem 19362, epItem 19363, epItem 19363]

def w6report : YearlyReport := (processReports w6data).headD dummyReport

def w6month : MonthlyReport := w6report.monthlyBreakdown.headD dummyMonth

set_option maxRecDepth 200000 in
unseal Rat.add Rat.mul Rat.inv Rat.sub in
/-- Witness for C3 at `w3data`: non-negative durations, and the total is
`round((90 + 0) / 60) = 2`. -/
theorem C3_totalDurationHours_spec_witness :
    (∀ i ∈ w3data, 0 ≤ jsDur i) ∧
    (0 ≤ (processHistoryData w3data).totalDurationHours ∧
     (processHistoryData w3data).totalDurationHours =
       jsRound ((w3data.map (fun i => max (jsDur i) 0)).sum / 60)) :=
  ⟨by decide, C3_totalDurationHours_spec w3data (by decide)⟩

set_option maxRecDepth 200000 in
unseal Rat.add Rat.mul Rat.inv Rat.sub in
/-- Witness for C5: appending the invalid-timestamp track `w5e` to
`w3data` bumps the totals but leaves every time bucket and every yearly
report unchanged. -/
theorem C5_invalid_timestamp_isolation_witness :
    (processHistoryData (w3data ++ [w5e])).totalPlays =
      (processHistoryData w3data).totalPlays + 1 ∧
    (processHistoryData (w3data ++ [w5e])).totalDurationHours =
      jsRound ((w3data.map (fun i => jsDur i / 60)).sum + jsDur w5e / 60) ∧
    (processHistoryData (w3data ++ [w5e])).playsByHour =
      (processHistoryData w3data).playsByHour ∧
    (processHistoryData (w3data ++ [w5e])).playsByDayOfWeek =
      (processHistoryData w3data).playsByDayOfWeek ∧
    (processHistoryData (w3data ++ [w5e])).playsByMonth =
      (processHistoryData w3data).playsByMonth ∧
    processReports (w3data ++ [w5e]) = processReports w3data :=
  C5_invalid_timestamp_isolation w3data w5e rfl

set_option maxRecDepth 200000 in
unseal Rat.add Rat.mul Rat.inv Rat.sub in
/-- Witness for C9 at `w3data` and the track event `w5e`. -/
theorem C9_toplist_contributors_witness :
    (processHistoryData w3data).topMovies =
      (processHistoryData (w3data.filter movieContribB)).topMovies ∧
    (processHistoryData w3data).topShows =
      (processHistoryData (w3data.filter showContribB)).topShows ∧
    (processHistoryData (w3data ++ [w5e])).topMovies =
      (processHistoryData w3data).topMovies ∧
    (processHistoryData (w3data ++ [w5e])).topShows =
      (processHistoryData w3data).topShows ∧
    (processHistoryData (w3data ++ [w5e])).totalPlays =
      (processHistoryData w3data).totalPlays + 1 ∧
    (processHistoryData (w3data ++ [w5e])).totalDurationHours =
      jsRound ((w3data.map (fun i => jsDur i / 60)).sum + jsDur w5e / 60) ∧
    distLookup (processHistoryData (w3data ++ [w5e])) (kindName (jsType w5e)) =
      distLookup (processHistoryData w3data) (kindName (jsType w5e)) + 1 :=
  C9_toplist_contributors w3data w5e (by decide)

set_option maxRecDepth 200000 in
unseal Rat.add Rat.mul Rat.inv Rat.sub in
/-- Witness for C4: three consecutive active days give streak 3. -/
theorem C4_longest_streak_witness :
    w4report ∈ processReports w4data ∧
    w4report.longestStreak = longestDayRun
      ((dedupFirst ((yearItems w4data w4report.year).map
        (fun p => p.2.dayIdx))).insertionSort (fun a b => a ≤ b)) ∧
    w4report.longestStreak = 3 :=
  ⟨by decide, C4_longest_streak w4data w4report (by decide), by decide⟩

set_option maxRecDepth 200000 in
unseal Rat.add Rat.mul Rat.inv Rat.sub in
/-- Witness for C7 on the concrete 2023 report of `w4data`. -/
theorem C7_weekly_heatmap_witness :
    w4report ∈ processReports w4data ∧
    (w4report.heatmapData.length = 168 ∧
     (∀ d h : Nat, d < 7 → h < 24 →
       w4report.heatmapData.countP
         (fun p => decide (p.day = d ∧ p.hour = h)) = 1) ∧
     (∀ p ∈ w4report.heatmapData, p.value =
       (yearItems w4data w4report.year).countP
         (fun q => decide (dowOf q.2 = p.day ∧ hourOf q.2 = p.hour)))) :=
  ⟨by decide, C7_weekly_heatmap w4data w4report (by decide)⟩

set_option maxRecDepth 200000 in
unseal Rat.add Rat.mul Rat.inv Rat.sub in
/-- Witness for C10 on the concrete 2023 report of `w4data`. -/
theorem C10_report_consistency_witness :
    w4report ∈ processReports w4data ∧
    (w4report.totalPlays = (w4report.heatmapData.map (fun p => p.value)).sum ∧
     w4report.totalPlays = (w4report.dailyActivity.map (fun e => e.2)).sum ∧
     w4report.totalPlays =
       (w4report.monthlyBreakdown.map (fun m => m.playCount)).sum ∧
     w4report.activeDays = w4report.dailyActivity.length) :=
  ⟨by decide, C10_report_consistency w4data w4report (by decide)⟩

set_option maxRecDepth 200000 in
unseal Rat.add Rat.mul Rat.inv Rat.sub in
/-- Witness for C6: five episodes over two active days score 5/2. -/
theorem C6_binge_score_witness :
    (w6report ∈ processReports w6data ∧
     w6month ∈ w6report.monthlyBreakdown) ∧
    (w6month.bingeScore =
      (if (dedupFirst ((monthItems w6data w6month.monthKey).map
            (fun p => p.2.dayIdx))).length = 0
       then 0
       else min 10 ((jsRound
          (((monthItems w6data w6month.monthKey).countP
              (fun p => decide (p.1.type = some .episode)) : ℚ) /
            ((dedupFirst ((monthItems w6data w6month.monthKey).map
              (fun p => p.2.dayIdx))).length) * 10) : ℚ) / 10)) ∧
     0 ≤ w6month.bingeScore ∧ w6month.bingeScore ≤ 10) ∧
    w6month.bingeScore = 5 / 2 :=
  ⟨⟨by decide, by decide⟩,
   C6_binge_score w6data w6report w6month (by decide) (by decide),
   by decide⟩

set_option maxRecDepth 200000 in
unseal Rat.add Rat.mul Rat.inv Rat.sub in
/-- Witness for C8: February 2023 over `w3data` (28 days, all-zero
counts except the two events' cells fall outside this month). -/
theorem C8_monthly_heatmap_witness :
    28 ≤ daysInMonth 2023 1 ∧ daysInMonth 2023 1 ≤ 31 ∧
    (generateMonthlyHeatmap w3data 2023 1).map (fun p => (p.day, p.hour)) =
      (List.range' 1 (daysInMonth 2023 1)).flatMap
        (fun d => (List.range 24).map (fun h => (d, h))) ∧
    (∀ p ∈ generateMonthlyHeatmap w3data 2023 1,
      p.value = w3data.countP (eventInBucket 2023 1 p.day p.hour)) :=
  C8_monthly_heatmap w3data 2023 1 (by decide)
